import Mathlib

/-!
Verification of the order-mutation core of the logistics backend
(`app/services/order_servise.py` and its error taxonomy in
`app/core/exceptions/exceptions.py`).

The database state is embedded as lists of rows; quantities and prices are
integers (Python `int`, and `Decimal` with two fixed decimal places scaled to
an integer number of hundredths — the core copies prices but never computes
with them).  Each service method becomes a pure function from a state and an
input to either an error or a new state: a raised business exception aborts
the enclosing transaction, so in the embedding an error leaves the state
unchanged.
-/

namespace Logistics

/-- A catalog row (`Nomenclature` model): surrogate id, on-hand quantity,
unit price in hundredths.  Python stores quantity as a plain `int`, so the
embedding uses `Int` — nothing in the type forbids a negative quantity. -/
structure Nomenclature where
  id : Int
  quantity : Int
  price : Int
  deriving Repr, DecidableEq

/-- An order row (`Order` model): surrogate id and owning client. -/
structure Order where
  id : Int
  client_id : Int
  deriving Repr, DecidableEq

/-- An order line row (`OrderItem` model). -/
structure OrderItem where
  order_id : Int
  nomenclature_id : Int
  quantity : Int
  price_at_purchase : Int
  deriving Repr, DecidableEq

/-- One requested line of a full-order creation
(the `(nomenclature_id, quantity)` part of `OrderItemCreateInput` inside
`OrderCreate.items`). -/
structure OrderItemLine where
  nomenclature_id : Int
  quantity : Int
  deriving Repr, DecidableEq

/-- Input schema of `create_full_order` (`OrderCreate`). -/
structure OrderCreate where
  client_id : Int
  items : List OrderItemLine
  deriving Repr, DecidableEq

/-- Input schema of `add_item_to_order` (`OrderItemCreateInput`). -/
structure OrderItemCreateInput where
  order_id : Int
  nomenclature_id : Int
  quantity : Int
  deriving Repr, DecidableEq

/-- The committed database state: the three tables touched by the core, plus
the sequence counter that assigns the next order id on flush. -/
structure DBState where
  nomenclatures : List Nomenclature
  orders : List Order
  order_items : List OrderItem
  next_order_id : Int
  deriving Repr, DecidableEq

/-- The three business error conditions
(`OrderNotFoundError`, `NomenclatureNotFoundError`, `InsufficientStockError`),
each carrying exactly the attributes its constructor stores. -/
inductive ServiceError where
  | orderNotFound (order_id : Int)
  | nomenclatureNotFound (nomenclature_id : Int)
  | insufficientStock (nomenclature_id available_quantity requested_quantity : Int)
  deriving Repr, DecidableEq

/-- Primary-key lookup of a nomenclature row.  `id` is the primary key, so
the table never holds two rows with the same id; `find?` returns the row. -/
def findNomenclature (noms : List Nomenclature) (i : Int) : Option Nomenclature :=
  noms.find? (fun n => n.id == i)

/-- Stock decrement `nomenclature.quantity -= amount` on the row(s) with the given id:
the stock-ledger decrement step. -/
def decrement_stock (noms : List Nomenclature) (i amount : Int) : List Nomenclature :=
  noms.map (fun n => if n.id == i then { n with quantity := n.quantity - amount } else n)

/-- SQLAlchemy `scalar_one_or_none`: `none` result models the
`MultipleResultsFound` infrastructure fault raised when the query matched
two or more rows. -/
def scalarOneOrNone {α : Type} (l : List α) : Option (Option α) :=
  match l with
  | [] => some none
  | [a] => some (some a)
  | _ :: _ :: _ => none

/-- Current price of the row with the given id (0 if absent — in
`create_full_order` the lookup happens only after validation proved the row
present, so the default is never read on any reachable path). -/
def priceOf (noms : List Nomenclature) (i : Int) : Int :=
  match findNomenclature noms i with
  | some n => n.price
  | none => 0

/-- The validation pass of `create_full_order` (source lines 53-67): walk the
requested lines in input order against the locked snapshot; the first line
whose nomenclature is absent or whose quantity exceeds the snapshot quantity
determines the raised error. -/
def validateItems (noms : List Nomenclature) : List OrderItemLine → Option ServiceError
  | [] => none
  | line :: rest =>
    match findNomenclature noms line.nomenclature_id with
    | none => some (.nomenclatureNotFound line.nomenclature_id)
    | some item_db =>
      if item_db.quantity < line.quantity then
        some (.insufficientStock line.nomenclature_id item_db.quantity line.quantity)
      else
        validateItems noms rest

/-- The mutation pass of `create_full_order` (source lines 74-86): for each
line in input order, decrement the stock row, then create the `OrderItem`
with the (already decremented, price-unchanged) row's current price. -/
def applyLines (oid : Int) :
    List Nomenclature → List OrderItem → List OrderItemLine →
    List Nomenclature × List OrderItem
  | noms, acc, [] => (noms, acc)
  | noms, acc, line :: rest =>
    let noms' := decrement_stock noms line.nomenclature_id line.quantity
    let item : OrderItem :=
      { order_id := oid, nomenclature_id := line.nomenclature_id,
        quantity := line.quantity,
        price_at_purchase := priceOf noms' line.nomenclature_id }
    applyLines oid noms' (acc ++ [item]) rest

/-- Model of `OrderService.create_full_order`: lock-and-fetch the requested rows (the
snapshot is the committed table restricted to the requested ids, so lookups
by a requested id agree with lookups in the full table), validate every line
against that snapshot, and only then create the order row and run the
mutation pass.  Any validation failure raises before any mutation. -/
def create_full_order (s : DBState) (order_in : OrderCreate) :
    Except ServiceError (DBState × Order) :=
  match validateItems s.nomenclatures order_in.items with
  | some e => .error e
  | none =>
    let order_db : Order := { id := s.next_order_id, client_id := order_in.client_id }
    let res := applyLines order_db.id s.nomenclatures s.order_items order_in.items
    .ok ({ nomenclatures := res.1,
           orders := s.orders ++ [order_db],
           order_items := res.2,
           next_order_id := s.next_order_id + 1 }, order_db)

/-- Result of `add_item_to_order`: success with the new state and the created
or updated line, a business error, or the `MultipleResultsFound`
infrastructure fault from `scalar_one_or_none` (outside the taxonomy). -/
inductive AddItemResult where
  | ok (state : DBState) (item : OrderItem)
  | err (e : ServiceError)
  | fault
  deriving Repr, DecidableEq

/-- The row predicate of the existing-item query in `add_item_to_order`. -/
def matchesLine (d : OrderItemCreateInput) (it : OrderItem) : Bool :=
  it.order_id == d.order_id && it.nomenclature_id == d.nomenclature_id

/-- Model of `OrderService.add_item_to_order` (source lines 114-159): fetch the order
by primary key, lock-and-fetch the nomenclature by primary key, check stock,
lock-and-fetch the existing `(order, nomenclature)` line via
`scalar_one_or_none`, then merge into it or create a new line, and decrement
the stock row. -/
def add_item_to_order (s : DBState) (d : OrderItemCreateInput) : AddItemResult :=
  match s.orders.find? (fun o => o.id == d.order_id) with
  | none => .err (.orderNotFound d.order_id)
  | some _ =>
    match findNomenclature s.nomenclatures d.nomenclature_id with
    | none => .err (.nomenclatureNotFound d.nomenclature_id)
    | some product =>
      if product.quantity < d.quantity then
        .err (.insufficientStock d.nomenclature_id product.quantity d.quantity)
      else
        match scalarOneOrNone (s.order_items.filter (matchesLine d)) with
        | none => .fault
        | some (some existing) =>
          .ok { s with
                order_items := s.order_items.map (fun it =>
                  if matchesLine d it then
                    { it with quantity := it.quantity + d.quantity }
                  else it),
                nomenclatures :=
                  decrement_stock s.nomenclatures d.nomenclature_id d.quantity }
              { existing with quantity := existing.quantity + d.quantity }
        | some none =>
          let order_item : OrderItem :=
            { order_id := d.order_id, nomenclature_id := d.nomenclature_id,
              quantity := d.quantity, price_at_purchase := product.price }
          .ok { s with
                order_items := s.order_items ++ [order_item],
                nomenclatures :=
                  decrement_stock s.nomenclatures d.nomenclature_id d.quantity }
              order_item

/-- One service request: either operation with its input. -/
inductive Op where
  | createFullOrder (order_in : OrderCreate)
  | addItem (d : OrderItemCreateInput)
  deriving Repr, DecidableEq

/-- Commit semantics of one request: on success the new state is committed;
on a raised error or fault the transaction rolls back and the committed
state is unchanged. -/
def applyOp (s : DBState) : Op → DBState
  | .createFullOrder oin =>
    match create_full_order s oin with
    | .ok r => r.1
    | .error _ => s
  | .addItem d =>
    match add_item_to_order s d with
    | .ok s' _ => s'
    | .err _ => s
    | .fault => s

/-- The committed state after a sequence of requests. -/
def runOps (s : DBState) (ops : List Op) : DBState := ops.foldl applyOp s

/-- A requested line passes validation against a table: its nomenclature is
present and holds at least the requested quantity. -/
def lineValid (noms : List Nomenclature) (l : OrderItemLine) : Prop :=
  ∃ n, findNomenclature noms l.nomenclature_id = some n ∧ l.quantity ≤ n.quantity

/-- The error `create_full_order` raises for an invalid line. -/
def lineError (noms : List Nomenclature) (l : OrderItemLine) : ServiceError :=
  match findNomenclature noms l.nomenclature_id with
  | none => .nomenclatureNotFound l.nomenclature_id
  | some n => .insufficientStock l.nomenclature_id n.quantity l.quantity

/-- Total quantity requested for one nomenclature id across all lines of a
request. -/
def totalRequested (lines : List OrderItemLine) (i : Int) : Int :=
  ((lines.filter (fun l => l.nomenclature_id == i)).map (fun l => l.quantity)).sum

/-- All stock rows of a committed state have non-negative quantity. -/
def quantitiesNonneg (s : DBState) : Prop :=
  ∀ n ∈ s.nomenclatures, 0 ≤ n.quantity

/-- A request whose create-full-order lines name pairwise distinct
nomenclature ids (add-item requests are unrestricted). -/
def opNoDupLines : Op → Prop
  | .createFullOrder oin => (oin.items.map (fun l => l.nomenclature_id)).Nodup
  | .addItem _ => True

instance lineValidDecidable (noms : List Nomenclature) (l : OrderItemLine) :
    Decidable (lineValid noms l) := by
  unfold lineValid
  cases h : findNomenclature noms l.nomenclature_id with
  | none =>
    exact isFalse (by rintro ⟨n, hn, -⟩; exact Option.noConfusion hn)
  | some n =>
    refine decidable_of_iff (l.quantity ≤ n.quantity) ⟨fun hq => ⟨n, rfl, hq⟩, ?_⟩
    rintro ⟨m, hm, hq⟩
    injection hm with hm
    rw [hm]; exact hq

instance opNoDupLinesDecidable (op : Op) : Decidable (opNoDupLines op) := by
  cases op with
  | createFullOrder oin => unfold opNoDupLines; infer_instance
  | addItem d => unfold opNoDupLines; infer_instance

instance quantitiesNonnegDecidable (s : DBState) : Decidable (quantitiesNonneg s) := by
  unfold quantitiesNonneg; infer_instance

section Lemmas

lemma decrement_stock_map_id (noms : List Nomenclature) (j a : Int) :
    (decrement_stock noms j a).map (fun n => n.id) = noms.map (fun n => n.id) := by
  simp only [decrement_stock, List.map_map]
  apply List.map_congr_left
  intro n _
  by_cases h : n.id = j <;> simp [h]

lemma findNomenclature_decrement_stock (noms : List Nomenclature) (i j a : Int) :
    findNomenclature (decrement_stock noms j a) i =
      if i = j then
        (findNomenclature noms i).map (fun n => { n with quantity := n.quantity - a })
      else findNomenclature noms i := by
  induction noms with
  | nil => by_cases hij : i = j <;> simp [findNomenclature, decrement_stock, hij]
  | cons n ns ih =>
    by_cases hnj : n.id = j <;> by_cases hni : n.id = i <;> by_cases hij : i = j <;>
      simp_all [findNomenclature, decrement_stock, List.find?_cons, hnj, hni, hij]

lemma priceOf_decrement_stock (noms : List Nomenclature) (i j a : Int) :
    priceOf (decrement_stock noms j a) i = priceOf noms i := by
  simp only [priceOf, findNomenclature_decrement_stock]
  by_cases hij : i = j
  · simp only [hij, if_pos rfl]
    cases findNomenclature noms j <;> rfl
  · simp [hij]

lemma validateItems_congr (noms noms' : List Nomenclature) (lines : List OrderItemLine)
    (h : ∀ l ∈ lines,
      findNomenclature noms' l.nomenclature_id = findNomenclature noms l.nomenclature_id) :
    validateItems noms' lines = validateItems noms lines := by
  induction lines with
  | nil => rfl
  | cons l rest ih =>
    have hl := h l (by simp)
    simp only [validateItems, hl]
    cases findNomenclature noms l.nomenclature_id with
    | none => rfl
    | some n =>
      by_cases hq : n.quantity < l.quantity
      · simp [hq]
      · simp only [if_neg hq]
        exact ih (fun x hx => h x (by simp [hx]))

lemma findNomenclature_mem {noms : List Nomenclature} {i : Int} {n : Nomenclature}
    (h : findNomenclature noms i = some n) : n ∈ noms ∧ n.id = i := by
  refine ⟨List.mem_of_find?_eq_some h, ?_⟩
  have := List.find?_some h
  simpa using this

lemma findNomenclature_of_mem_nodup {noms : List Nomenclature} {i : Int} {n : Nomenclature}
    (hnd : (noms.map (fun m => m.id)).Nodup) (hn : n ∈ noms) (hi : n.id = i) :
    findNomenclature noms i = some n := by
  cases hf : findNomenclature noms i with
  | none =>
    have := List.find?_eq_none.mp hf n hn
    simp [hi] at this
  | some m =>
    obtain ⟨hmem, hmi⟩ := findNomenclature_mem hf
    have : m = n := List.inj_on_of_nodup_map hnd hmem hn (by rw [hmi, hi])
    rw [this]

lemma decrement_stock_nonneg {noms : List Nomenclature} {i a : Int}
    {product : Nomenclature}
    (hnd : (noms.map (fun m => m.id)).Nodup)
    (h0 : ∀ n ∈ noms, 0 ≤ n.quantity)
    (hf : findNomenclature noms i = some product)
    (hq : a ≤ product.quantity) :
    ∀ m ∈ decrement_stock noms i a, 0 ≤ m.quantity := by
  intro m hm
  obtain ⟨n, hn, rfl⟩ := List.mem_map.mp hm
  by_cases hni : n.id = i
  · have : n = product := by
      have hfp := findNomenclature_of_mem_nodup hnd hn hni
      rw [hfp] at hf
      exact Option.some.inj hf
    subst this
    simp only [hni, beq_self_eq_true, if_pos]
    omega
  · simp only [hni, beq_iff_eq, if_neg]
    exact h0 n hn

lemma applyLines_fst_map_id (oid : Int) (lines : List OrderItemLine) :
    ∀ (noms : List Nomenclature) (acc : List OrderItem),
      ((applyLines oid noms acc lines).1).map (fun n => n.id) =
        noms.map (fun n => n.id) := by
  induction lines with
  | nil => intro noms acc; rfl
  | cons l rest ih =>
    intro noms acc
    simp only [applyLines]
    rw [ih, decrement_stock_map_id]

lemma applyLines_snd (oid : Int) (lines : List OrderItemLine) :
    ∀ (noms : List Nomenclature) (acc : List OrderItem),
      (applyLines oid noms acc lines).2 =
        acc ++ lines.map (fun l =>
          { order_id := oid, nomenclature_id := l.nomenclature_id,
            quantity := l.quantity,
            price_at_purchase := priceOf noms l.nomenclature_id }) := by
  induction lines with
  | nil => intro noms acc; simp [applyLines]
  | cons l rest ih =>
    intro noms acc
    simp only [applyLines, List.map_cons]
    rw [ih]
    simp [priceOf_decrement_stock]

lemma totalRequested_cons (l : OrderItemLine) (rest : List OrderItemLine) (i : Int) :
    totalRequested (l :: rest) i =
      if l.nomenclature_id = i then l.quantity + totalRequested rest i
      else totalRequested rest i := by
  by_cases h : l.nomenclature_id = i <;>
    simp [totalRequested, List.filter_cons, h]

lemma applyLines_fst_find (oid : Int) (lines : List OrderItemLine) :
    ∀ (noms : List Nomenclature) (acc : List OrderItem) (i : Int),
      findNomenclature (applyLines oid noms acc lines).1 i =
        (findNomenclature noms i).map
          (fun n => { n with quantity := n.quantity - totalRequested lines i }) := by
  induction lines with
  | nil =>
    intro noms acc i
    simp only [applyLines]
    have ht : totalRequested [] i = 0 := rfl
    rw [ht]
    cases hf : findNomenclature noms i with
    | none => rfl
    | some n => simp
  | cons l rest ih =>
    intro noms acc i
    simp only [applyLines]
    rw [ih, findNomenclature_decrement_stock, totalRequested_cons]
    by_cases hli : l.nomenclature_id = i
    · subst hli
      simp only [if_pos rfl, Option.map_map]
      cases findNomenclature noms l.nomenclature_id with
      | none => rfl
      | some n =>
        simp [Function.comp_def, sub_sub]
    · have hil : ¬ (i = l.nomenclature_id) := fun hc => hli hc.symm
      simp [hil, hli]

lemma applyLines_fst_nonneg (oid : Int) (lines : List OrderItemLine) :
    ∀ (noms : List Nomenclature) (acc : List OrderItem),
      (noms.map (fun n => n.id)).Nodup →
      validateItems noms lines = none →
      (lines.map (fun l => l.nomenclature_id)).Nodup →
      (∀ n ∈ noms, 0 ≤ n.quantity) →
      ∀ m ∈ (applyLines oid noms acc lines).1, 0 ≤ m.quantity := by
  induction lines with
  | nil => intro noms acc _ _ _ h0; exact h0
  | cons l rest ih =>
    intro noms acc hnd hval hlines h0
    cases hf : findNomenclature noms l.nomenclature_id with
    | none => simp [validateItems, hf] at hval
    | some item_db =>
      by_cases hq : item_db.quantity < l.quantity
      · simp [validateItems, hf, hq] at hval
      · have hval' : validateItems noms rest = none := by
          simpa [validateItems, hf, hq] using hval
        have hlc : l.nomenclature_id ∉ rest.map (fun x => x.nomenclature_id) ∧
            (rest.map (fun x => x.nomenclature_id)).Nodup := by
          rw [List.map_cons] at hlines
          exact List.nodup_cons.mp hlines
        simp only [applyLines]
        apply ih
        · rw [decrement_stock_map_id]; exact hnd
        · refine (validateItems_congr noms _ rest ?_).trans hval'
          intro x hx
          rw [findNomenclature_decrement_stock]
          have : ¬ (x.nomenclature_id = l.nomenclature_id) := by
            intro hc
            exact hlc.1 (by rw [← hc]; exact List.mem_map_of_mem _ hx)
          simp [this]
        · exact hlc.2
        · exact decrement_stock_nonneg hnd h0 hf (le_of_not_lt hq)

lemma scalarOneOrNone_some_none {α : Type} {l : List α} :
    scalarOneOrNone l = some none ↔ l = [] := by
  cases l with
  | nil => simp [scalarOneOrNone]
  | cons a l' => cases l' <;> simp [scalarOneOrNone]

lemma scalarOneOrNone_some_some {α : Type} {l : List α} {a : α} :
    scalarOneOrNone l = some (some a) ↔ l = [a] := by
  cases l with
  | nil => simp [scalarOneOrNone]
  | cons b l' => cases l' <;> simp [scalarOneOrNone]

lemma scalarOneOrNone_eq_none {α : Type} {l : List α} :
    scalarOneOrNone l = none ↔ 2 ≤ l.length := by
  cases l with
  | nil => simp [scalarOneOrNone]
  | cons a t =>
    cases t with
    | nil => simp [scalarOneOrNone]
    | cons b t' => simp [scalarOneOrNone]

lemma create_full_order_ok {s : DBState} {oin : OrderCreate} {s' : DBState} {ord : Order}
    (h : create_full_order s oin = .ok (s', ord)) :
    validateItems s.nomenclatures oin.items = none ∧
    ord = { id := s.next_order_id, client_id := oin.client_id } ∧
    s' = { nomenclatures :=
             (applyLines s.next_order_id s.nomenclatures s.order_items oin.items).1,
           orders := s.orders ++ [{ id := s.next_order_id, client_id := oin.client_id }],
           order_items :=
             (applyLines s.next_order_id s.nomenclatures s.order_items oin.items).2,
           next_order_id := s.next_order_id + 1 } := by
  unfold create_full_order at h
  split at h
  · exact absurd h (by simp)
  · simp only [Except.ok.injEq, Prod.mk.injEq] at h
    exact ⟨by assumption, h.2.symm, h.1.symm⟩

lemma create_full_order_error {s : DBState} {oin : OrderCreate} {e : ServiceError}
    (h : create_full_order s oin = .error e) :
    validateItems s.nomenclatures oin.items = some e := by
  unfold create_full_order at h
  split at h
  · simp only [Except.error.injEq] at h
    subst h; assumption
  · exact absurd h (by simp)

lemma add_item_ok {s : DBState} {d : OrderItemCreateInput} {s' : DBState} {it : OrderItem}
    (h : add_item_to_order s d = .ok s' it) :
    ∃ ord product,
      s.orders.find? (fun o => o.id == d.order_id) = some ord ∧
      findNomenclature s.nomenclatures d.nomenclature_id = some product ∧
      d.quantity ≤ product.quantity ∧
      s'.nomenclatures = decrement_stock s.nomenclatures d.nomenclature_id d.quantity ∧
      s'.orders = s.orders ∧ s'.next_order_id = s.next_order_id ∧
      ((s.order_items.filter (matchesLine d) = [] ∧
        it = { order_id := d.order_id, nomenclature_id := d.nomenclature_id,
               quantity := d.quantity, price_at_purchase := product.price } ∧
        s'.order_items = s.order_items ++ [it]) ∨
       (∃ ex, s.order_items.filter (matchesLine d) = [ex] ∧
        it = { ex with quantity := ex.quantity + d.quantity } ∧
        s'.order_items = s.order_items.map (fun e =>
          if matchesLine d e then { e with quantity := e.quantity + d.quantity }
          else e))) := by
  unfold add_item_to_order at h
  split at h
  · exact absurd h (by simp)
  · rename_i ord ho
    split at h
    · exact absurd h (by simp)
    · rename_i product hn
      split at h
      · exact absurd h (by simp)
      · rename_i hq
        split at h
        · exact absurd h (by simp)
        · rename_i ex hso
          rw [scalarOneOrNone_some_some.mp hso] at *
          simp only [AddItemResult.ok.injEq] at h
          refine ⟨ord, product, ho, hn, le_of_not_lt hq, ?_, ?_, ?_, ?_⟩
          · rw [← h.1]
          · rw [← h.1]
          · rw [← h.1]
          · right
            exact ⟨ex, scalarOneOrNone_some_some.mp hso, h.2.symm, by rw [← h.1]⟩
        · rename_i hso
          simp only [AddItemResult.ok.injEq] at h
          refine ⟨ord, product, ho, hn, le_of_not_lt hq, ?_, ?_, ?_, ?_⟩
          · rw [← h.1]
          · rw [← h.1]
          · rw [← h.1]
          · left
            refine ⟨scalarOneOrNone_some_none.mp hso, h.2.symm, ?_⟩
            rw [← h.1, ← h.2]

lemma add_item_ok_of {s : DBState} {d : OrderItemCreateInput} {ord : Order}
    {product : Nomenclature} {r : Option OrderItem}
    (ho : s.orders.find? (fun o => o.id == d.order_id) = some ord)
    (hn : findNomenclature s.nomenclatures d.nomenclature_id = some product)
    (hq : d.quantity ≤ product.quantity)
    (hso : scalarOneOrNone (s.order_items.filter (matchesLine d)) = some r) :
    ∃ s' it, add_item_to_order s d = .ok s' it := by
  unfold add_item_to_order
  rw [ho, hn]
  dsimp only
  rw [if_neg (not_lt.mpr hq), hso]
  cases r with
  | none => exact ⟨_, _, rfl⟩
  | some ex => exact ⟨_, _, rfl⟩

lemma runOps_singleton (s : DBState) (op : Op) : runOps s [op] = applyOp s op := rfl

lemma applyOp_create_error {s : DBState} {oin : OrderCreate} {e : ServiceError}
    (h : create_full_order s oin = .error e) :
    applyOp s (.createFullOrder oin) = s := by
  simp only [applyOp]
  rw [h]

lemma applyOp_addItem_err {s : DBState} {d : OrderItemCreateInput} {e : ServiceError}
    (h : add_item_to_order s d = .err e) :
    applyOp s (.addItem d) = s := by
  simp only [applyOp]
  rw [h]

lemma applyOp_addItem_fault {s : DBState} {d : OrderItemCreateInput}
    (h : add_item_to_order s d = .fault) :
    applyOp s (.addItem d) = s := by
  simp only [applyOp]
  rw [h]

lemma applyOp_nomenclatures_map_id (s : DBState) (op : Op) :
    (applyOp s op).nomenclatures.map (fun n => n.id) =
      s.nomenclatures.map (fun n => n.id) := by
  cases op with
  | createFullOrder oin =>
    cases h : create_full_order s oin with
    | error e => rw [applyOp_create_error h]
    | ok r =>
      obtain ⟨s', ord⟩ := r
      obtain ⟨-, -, hs'⟩ := create_full_order_ok h
      have : applyOp s (.createFullOrder oin) = s' := by
        simp only [applyOp]; rw [h]
      rw [this, hs']
      exact applyLines_fst_map_id _ _ _ _
  | addItem d =>
    cases h : add_item_to_order s d with
    | err e => rw [applyOp_addItem_err h]
    | fault => rw [applyOp_addItem_fault h]
    | ok s' it =>
      obtain ⟨ord, product, -, -, -, hnoms, -, -, -⟩ := add_item_ok h
      have : applyOp s (.addItem d) = s' := by
        simp only [applyOp]; rw [h]
      rw [this, hnoms]
      exact decrement_stock_map_id _ _ _

lemma applyOp_quantitiesNonneg {s : DBState} {op : Op}
    (hnd : (s.nomenclatures.map (fun n => n.id)).Nodup)
    (h0 : quantitiesNonneg s) (hop : opNoDupLines op) :
    quantitiesNonneg (applyOp s op) := by
  cases op with
  | createFullOrder oin =>
    cases h : create_full_order s oin with
    | error e => rw [applyOp_create_error h]; exact h0
    | ok r =>
      obtain ⟨s', ord⟩ := r
      obtain ⟨hval, -, hs'⟩ := create_full_order_ok h
      have happ : applyOp s (.createFullOrder oin) = s' := by
        simp only [applyOp]; rw [h]
      rw [happ, hs']
      exact applyLines_fst_nonneg _ _ _ _ hnd hval hop h0
  | addItem d =>
    cases h : add_item_to_order s d with
    | err e => rw [applyOp_addItem_err h]; exact h0
    | fault => rw [applyOp_addItem_fault h]; exact h0
    | ok s' it =>
      obtain ⟨ord, product, -, hn, hq, hnoms, -, -, -⟩ := add_item_ok h
      have happ : applyOp s (.addItem d) = s' := by
        simp only [applyOp]; rw [h]
      intro m hm
      rw [happ, hnoms] at hm
      exact decrement_stock_nonneg hnd h0 hn hq m hm

lemma validateItems_eq_none_iff (noms : List Nomenclature) (lines : List OrderItemLine) :
    validateItems noms lines = none ↔ ∀ l ∈ lines, lineValid noms l := by
  induction lines with
  | nil => simp [validateItems]
  | cons l rest ih =>
    cases hf : findNomenclature noms l.nomenclature_id with
    | none =>
      simp only [validateItems, hf]
      constructor
      · intro h; exact absurd h (by simp)
      · intro h
        obtain ⟨n, hn, -⟩ := h l (by simp)
        rw [hf] at hn; exact absurd hn (by simp)
    | some n =>
      by_cases hq : n.quantity < l.quantity
      · simp only [validateItems, hf, if_pos hq]
        constructor
        · intro h; exact absurd h (by simp)
        · intro h
          obtain ⟨m, hm, hqm⟩ := h l (by simp)
          rw [hf] at hm
          injection hm with hm
          subst hm
          omega
      · simp only [validateItems, hf, if_neg hq]
        rw [ih]
        constructor
        · intro h x hx
          rcases List.mem_cons.mp hx with rfl | hx'
          · exact ⟨n, hf, le_of_not_lt hq⟩
          · exact h x hx'
        · intro h x hx
          exact h x (List.mem_cons_of_mem _ hx)

lemma validateItems_append_valid (noms : List Nomenclature)
    (pre lines : List OrderItemLine)
    (hpre : ∀ l ∈ pre, lineValid noms l) :
    validateItems noms (pre ++ lines) = validateItems noms lines := by
  induction pre with
  | nil => rfl
  | cons p rest ih =>
    obtain ⟨n, hn, hq⟩ := hpre p (by simp)
    simp only [List.cons_append, validateItems, hn, if_neg (not_lt.mpr hq)]
    exact ih (fun l hl => hpre l (List.mem_cons_of_mem _ hl))

lemma validateItems_cons_invalid (noms : List Nomenclature)
    (bad : OrderItemLine) (rest : List OrderItemLine)
    (hbad : ¬ lineValid noms bad) :
    validateItems noms (bad :: rest) = some (lineError noms bad) := by
  cases hf : findNomenclature noms bad.nomenclature_id with
  | none => simp [validateItems, lineError, hf]
  | some n =>
    have hq : n.quantity < bad.quantity := by
      by_contra hq
      exact hbad ⟨n, hf, le_of_not_lt hq⟩
    simp [validateItems, lineError, hf, if_pos hq]

end Lemmas

section Claims

/-- C1 (counterexample): the non-negativity invariant fails as stated.  From
a committed state with a single nomenclature of quantity 10, one successful
`create_full_order` whose two lines both request 6 of it passes validation
(each line is checked against the original snapshot) and commits a state in
which that nomenclature's quantity is -2. -/
theorem quantity_invariant_counterexample :
    create_full_order
        { nomenclatures := [{ id := 1, quantity := 10, price := 500 }],
          orders := [], order_items := [], next_order_id := 1 }
        { client_id := 7, items := [{ nomenclature_id := 1, quantity := 6 },
                                    { nomenclature_id := 1, quantity := 6 }] } =
      .ok ({ nomenclatures := [{ id := 1, quantity := -2, price := 500 }],
             orders := [{ id := 1, client_id := 7 }],
             order_items :=
               [{ order_id := 1, nomenclature_id := 1, quantity := 6,
                  price_at_purchase := 500 },
                { order_id := 1, nomenclature_id := 1, quantity := 6,
                  price_at_purchase := 500 }],
             next_order_id := 2 }, { id := 1, client_id := 7 }) ∧
    (runOps { nomenclatures := [{ id := 1, quantity := 10, price := 500 }],
              orders := [], order_items := [], next_order_id := 1 }
        [.createFullOrder
          { client_id := 7, items := [{ nomenclature_id := 1, quantity := 6 },
                                      { nomenclature_id := 1, quantity := 6 }] }]
      ).nomenclatures.map (fun n => n.quantity) = [-2] :=
  ⟨rfl, rfl⟩

/-- C1 (amended): for every committed state reachable by any sequence of
create-full-order and add-item requests in which no create-full-order request
repeats a nomenclature id among its lines, every nomenclature's quantity
stays ≥ 0 (failed requests roll back and change nothing; nomenclature ids
are primary keys, hence pairwise distinct in the table). -/
theorem runOps_quantitiesNonneg (s : DBState) (ops : List Op)
    (hnd : (s.nomenclatures.map (fun n => n.id)).Nodup)
    (h0 : quantitiesNonneg s)
    (hops : ∀ op ∈ ops, opNoDupLines op) :
    quantitiesNonneg (runOps s ops) := by
  induction ops generalizing s with
  | nil => exact h0
  | cons op rest ih =>
    have h1 := applyOp_quantitiesNonneg hnd h0 (hops op (by simp))
    have hnd1 : ((applyOp s op).nomenclatures.map (fun n => n.id)).Nodup := by
      rw [applyOp_nomenclatures_map_id]; exact hnd
    exact ih (applyOp s op) hnd1 h1 (fun x hx => hops x (by simp [hx]))

/-- Witness for the amended C1: a concrete run mixing a successful add-item,
a failing add-item and a duplicate-free create-full-order keeps all
quantities non-negative. -/
theorem runOps_quantitiesNonneg_witness :
    quantitiesNonneg (runOps
      { nomenclatures := [{ id := 1, quantity := 10, price := 500 },
                          { id := 2, quantity := 0, price := 30 }],
        orders := [{ id := 1, client_id := 3 }], order_items := [],
        next_order_id := 2 }
      [.addItem { order_id := 1, nomenclature_id := 1, quantity := 4 },
       .addItem { order_id := 1, nomenclature_id := 2, quantity := 5 },
       .createFullOrder
         { client_id := 3,
           items := [{ nomenclature_id := 1, quantity := 6 },
                     { nomenclature_id := 2, quantity := 0 }] }]) :=
  runOps_quantitiesNonneg _ _ (by decide) (by decide) (by decide)

/-- C3: if any line of a create-full-order request is invalid — its
nomenclature id is absent or its requested quantity exceeds the available
quantity — the operation raises an error and the committed state is
completely unchanged: validation runs in full before any mutation. -/
theorem create_full_order_atomic (s : DBState) (oin : OrderCreate)
    (h : ∃ l ∈ oin.items, ¬ lineValid s.nomenclatures l) :
    (∃ e, create_full_order s oin = .error e) ∧
    runOps s [.createFullOrder oin] = s := by
  have hv : validateItems s.nomenclatures oin.items ≠ none := by
    rw [Ne, validateItems_eq_none_iff]
    intro hall
    obtain ⟨l, hl, hbad⟩ := h
    exact hbad (hall l hl)
  cases hve : validateItems s.nomenclatures oin.items with
  | none => exact absurd hve hv
  | some e =>
    have herr : create_full_order s oin = .error e := by
      unfold create_full_order
      rw [hve]
    exact ⟨⟨e, herr⟩, by rw [runOps_singleton, applyOp_create_error herr]⟩

/-- Witness for C3: a request whose second line names an unknown
nomenclature fails and leaves the state untouched. -/
theorem create_full_order_atomic_witness :
    (∃ e, create_full_order
        { nomenclatures := [{ id := 1, quantity := 5, price := 100 }],
          orders := [], order_items := [], next_order_id := 1 }
        { client_id := 2, items := [{ nomenclature_id := 1, quantity := 2 },
                                    { nomenclature_id := 9, quantity := 1 }] } =
      .error e) ∧
    runOps { nomenclatures := [{ id := 1, quantity := 5, price := 100 }],
             orders := [], order_items := [], next_order_id := 1 }
        [.createFullOrder
          { client_id := 2, items := [{ nomenclature_id := 1, quantity := 2 },
                                      { nomenclature_id := 9, quantity := 1 }] }] =
      { nomenclatures := [{ id := 1, quantity := 5, price := 100 }],
        orders := [], order_items := [], next_order_id := 1 } :=
  create_full_order_atomic _ _
    ⟨{ nomenclature_id := 9, quantity := 1 }, by decide, by decide⟩

/-- C4: in create-full-order each line is validated only against the
originally locked snapshot, never against the cumulative amount requested by
duplicate lines: with stock 10, the request [(1,6),(1,6)] passes validation
(both lines individually fit), requests 12 in total, succeeds, and commits
quantity -2. -/
theorem duplicate_lines_oversell :
    validateItems [{ id := 1, quantity := 10, price := 500 }]
        [{ nomenclature_id := 1, quantity := 6 },
         { nomenclature_id := 1, quantity := 6 }] = none ∧
    totalRequested [{ nomenclature_id := 1, quantity := 6 },
                    { nomenclature_id := 1, quantity := 6 }] 1 = 12 ∧
    create_full_order
        { nomenclatures := [{ id := 1, quantity := 10, price := 500 }],
          orders := [], order_items := [], next_order_id := 1 }
        { client_id := 7, items := [{ nomenclature_id := 1, quantity := 6 },
                                    { nomenclature_id := 1, quantity := 6 }] } =
      .ok ({ nomenclatures := [{ id := 1, quantity := -2, price := 500 }],
             orders := [{ id := 1, client_id := 7 }],
             order_items :=
               [{ order_id := 1, nomenclature_id := 1, quantity := 6,
                  price_at_purchase := 500 },
                { order_id := 1, nomenclature_id := 1, quantity := 6,
                  price_at_purchase := 500 }],
             next_order_id := 2 }, { id := 1, client_id := 7 }) :=
  ⟨rfl, rfl, rfl⟩

/-- C10: a create-full-order request with an empty items list succeeds for
every client id: it creates exactly one new order, adds no order items and
leaves every nomenclature quantity unchanged. -/
theorem create_full_order_empty_items (s : DBState) (cid : Int) :
    create_full_order s { client_id := cid, items := [] } =
      .ok ({ nomenclatures := s.nomenclatures,
             orders := s.orders ++ [{ id := s.next_order_id, client_id := cid }],
             order_items := s.order_items,
             next_order_id := s.next_order_id + 1 },
           { id := s.next_order_id, client_id := cid }) := rfl

/-- C6: a successful create-full-order appends, in input order, exactly one
OrderItem per input line — quantity as requested, price_at_purchase the
nomenclature's current price — without ever merging duplicate lines, and the
committed quantity of every nomenclature id drops by the total amount its
lines requested. -/
theorem create_full_order_lines (s : DBState) (oin : OrderCreate)
    (s' : DBState) (ord : Order)
    (h : create_full_order s oin = .ok (s', ord)) :
    s'.order_items = s.order_items ++ oin.items.map (fun l =>
      { order_id := ord.id, nomenclature_id := l.nomenclature_id,
        quantity := l.quantity,
        price_at_purchase := priceOf s.nomenclatures l.nomenclature_id }) ∧
    (∀ i, findNomenclature s'.nomenclatures i =
      (findNomenclature s.nomenclatures i).map
        (fun n => { n with quantity := n.quantity - totalRequested oin.items i })) ∧
    s'.order_items.length = s.order_items.length + oin.items.length := by
  obtain ⟨hval, hord, hs'⟩ := create_full_order_ok h
  subst hs'
  subst hord
  refine ⟨?_, ?_, ?_⟩
  · show (applyLines s.next_order_id s.nomenclatures s.order_items oin.items).2 = _
    rw [applyLines_snd]
  · intro i
    exact applyLines_fst_find _ _ _ _ _
  · show (applyLines s.next_order_id s.nomenclatures s.order_items oin.items).2.length = _
    rw [applyLines_snd]
    simp

/-- Witness for C6 at the spec's scenario: stock 8 of nomenclature 1, one
line requesting 1 — the new order's single item carries quantity 1 and the
current price, appended to the empty table. -/
theorem create_full_order_lines_witness :
    ({ nomenclatures := [{ id := 1, quantity := 7, price := 60000 }],
       orders := [{ id := 1, client_id := 1 }],
       order_items := [{ order_id := 1, nomenclature_id := 1, quantity := 1,
                         price_at_purchase := 60000 }],
       next_order_id := 2 } : DBState).order_items =
      ([] : List OrderItem) ++
        ([({ nomenclature_id := 1, quantity := 1 } : OrderItemLine)].map (fun l =>
          { order_id := ({ id := 1, client_id := 1 } : Order).id,
            nomenclature_id := l.nomenclature_id,
            quantity := l.quantity,
            price_at_purchase :=
              priceOf [{ id := 1, quantity := 8, price := 60000 }]
                l.nomenclature_id })) :=
  (create_full_order_lines
    { nomenclatures := [{ id := 1, quantity := 8, price := 60000 }],
      orders := [], order_items := [], next_order_id := 1 }
    { client_id := 1, items := [{ nomenclature_id := 1, quantity := 1 }] }
    _ _ rfl).1

/-- C2: from a state holding order O, nomenclature N with stock covering
q1 + q2, and no existing line for (O, N), two sequential add-item calls for
(O, N) with positive quantities q1 then q2 both succeed and leave exactly
one OrderItem for (O, N), with quantity q1 + q2 and price_at_purchase the
price N had at the first call. -/
theorem add_item_merge_property (s : DBState) (O N q1 q2 : Int)
    (ord : Order) (nom : Nomenclature)
    (ho : s.orders.find? (fun o => o.id == O) = some ord)
    (hn : findNomenclature s.nomenclatures N = some nom)
    (hq1 : 0 < q1) (hq2 : 0 < q2)
    (hstock : q1 + q2 ≤ nom.quantity)
    (hempty : s.order_items.filter
      (fun it => it.order_id == O && it.nomenclature_id == N) = []) :
    ∃ s1 it1 s2 it2,
      add_item_to_order s
          { order_id := O, nomenclature_id := N, quantity := q1 } = .ok s1 it1 ∧
      add_item_to_order s1
          { order_id := O, nomenclature_id := N, quantity := q2 } = .ok s2 it2 ∧
      it2 = { order_id := O, nomenclature_id := N, quantity := q1 + q2,
              price_at_purchase := nom.price } ∧
      s2.order_items.filter
          (fun it => it.order_id == O && it.nomenclature_id == N) =
        [{ order_id := O, nomenclature_id := N, quantity := q1 + q2,
           price_at_purchase := nom.price }] := by
  have hempty1 : s.order_items.filter
      (matchesLine { order_id := O, nomenclature_id := N, quantity := q1 }) = [] :=
    hempty
  have hempty2 : s.order_items.filter
      (matchesLine { order_id := O, nomenclature_id := N, quantity := q2 }) = [] :=
    hempty
  have h1 : add_item_to_order s
      { order_id := O, nomenclature_id := N, quantity := q1 } = .ok
      { s with
        order_items := s.order_items ++
          [{ order_id := O, nomenclature_id := N, quantity := q1,
             price_at_purchase := nom.price }],
        nomenclatures := decrement_stock s.nomenclatures N q1 }
      { order_id := O, nomenclature_id := N, quantity := q1,
        price_at_purchase := nom.price } := by
    unfold add_item_to_order
    dsimp only
    rw [ho, hn]
    dsimp only
    rw [if_neg (by omega : ¬ (nom.quantity < q1))]
    rw [show scalarOneOrNone (s.order_items.filter
        (matchesLine { order_id := O, nomenclature_id := N, quantity := q1 })) =
        some none from by rw [hempty1]; rfl]
  have hn2 : findNomenclature (decrement_stock s.nomenclatures N q1) N =
      some { nom with quantity := nom.quantity - q1 } := by
    rw [findNomenclature_decrement_stock]
    simp [hn]
  have hfil : (s.order_items ++
      [({ order_id := O, nomenclature_id := N, quantity := q1,
          price_at_purchase := nom.price } : OrderItem)]).filter
      (matchesLine { order_id := O, nomenclature_id := N, quantity := q2 }) =
      [{ order_id := O, nomenclature_id := N, quantity := q1,
         price_at_purchase := nom.price }] := by
    rw [List.filter_append, hempty2]
    simp [matchesLine]
  have h2 : add_item_to_order
      ({ s with
         order_items := s.order_items ++
           [{ order_id := O, nomenclature_id := N, quantity := q1,
              price_at_purchase := nom.price }],
         nomenclatures := decrement_stock s.nomenclatures N q1 } : DBState)
      { order_id := O, nomenclature_id := N, quantity := q2 } = .ok
      ({ s with
         order_items := (s.order_items ++
           [({ order_id := O, nomenclature_id := N, quantity := q1,
               price_at_purchase := nom.price } : OrderItem)]).map (fun it =>
           if matchesLine { order_id := O, nomenclature_id := N, quantity := q2 } it
           then { it with quantity := it.quantity + q2 } else it),
         nomenclatures :=
           decrement_stock (decrement_stock s.nomenclatures N q1) N q2 } : DBState)
      { order_id := O, nomenclature_id := N, quantity := q1 + q2,
        price_at_purchase := nom.price } := by
    unfold add_item_to_order
    dsimp only
    rw [ho, hn2]
    dsimp only
    rw [if_neg (by omega : ¬ (nom.quantity - q1 < q2))]
    rw [show scalarOneOrNone ((s.order_items ++
        [({ order_id := O, nomenclature_id := N, quantity := q1,
            price_at_purchase := nom.price } : OrderItem)]).filter
        (matchesLine { order_id := O, nomenclature_id := N, quantity := q2 })) =
        some (some { order_id := O, nomenclature_id := N, quantity := q1,
                     price_at_purchase := nom.price }) from by rw [hfil]; rfl]
  have hmem : ∀ x ∈ s.order_items,
      ¬ ((fun it => it.order_id == O && it.nomenclature_id == N) x = true) := by
    rw [← List.filter_eq_nil_iff]
    exact hempty
  have hfinal : ((s.order_items ++
      [({ order_id := O, nomenclature_id := N, quantity := q1,
          price_at_purchase := nom.price } : OrderItem)]).map (fun it =>
        if matchesLine { order_id := O, nomenclature_id := N, quantity := q2 } it
        then { it with quantity := it.quantity + q2 } else it)).filter
      (fun it => it.order_id == O && it.nomenclature_id == N) =
      [{ order_id := O, nomenclature_id := N, quantity := q1 + q2,
         price_at_purchase := nom.price }] := by
    rw [List.map_append, List.filter_append]
    have hleft : (s.order_items.map (fun it =>
        if matchesLine { order_id := O, nomenclature_id := N, quantity := q2 } it
        then { it with quantity := it.quantity + q2 } else it)).filter
        (fun it => it.order_id == O && it.nomenclature_id == N) = [] := by
      rw [List.filter_eq_nil_iff]
      intro a ha
      obtain ⟨x, hx, rfl⟩ := List.mem_map.mp ha
      have hpx := hmem x hx
      by_cases hmx : matchesLine { order_id := O, nomenclature_id := N, quantity := q2 } x
      · exact absurd hmx hpx
      · simpa [hmx] using hpx
    rw [hleft]
    simp [matchesLine]
  exact ⟨_, _, _, _, h1, h2, rfl, hfinal⟩

/-- Witness for C2: stock 10 of nomenclature 1, add 1 then 1 to order 1 —
one merged line of quantity 2 at the original price. -/
theorem add_item_merge_property_witness :
    ∃ s1 it1 s2 it2,
      add_item_to_order
          { nomenclatures := [{ id := 1, quantity := 10, price := 500 }],
            orders := [{ id := 1, client_id := 42 }], order_items := [],
            next_order_id := 2 }
          { order_id := 1, nomenclature_id := 1, quantity := 1 } = .ok s1 it1 ∧
      add_item_to_order s1
          { order_id := 1, nomenclature_id := 1, quantity := 1 } = .ok s2 it2 ∧
      it2 = { order_id := 1, nomenclature_id := 1, quantity := 1 + 1,
              price_at_purchase := 500 } ∧
      s2.order_items.filter
          (fun it => it.order_id == 1 && it.nomenclature_id == 1) =
        [{ order_id := 1, nomenclature_id := 1, quantity := 1 + 1,
           price_at_purchase := 500 }] :=
  add_item_merge_property _ 1 1 1 1 { id := 1, client_id := 42 }
    { id := 1, quantity := 10, price := 500 }
    (by decide) (by decide) (by decide) (by decide) (by decide) (by decide)

/-- C7: create-full-order validates in input order — with every line before
`bad` valid, the raised error is the one `bad` determines:
Nomenclature-Not-Found with its id when the id is absent from the locked
set, else Insufficient-Stock with its id, the available quantity and the
requested quantity. -/
theorem create_full_order_first_invalid (s : DBState) (cid : Int)
    (pre : List OrderItemLine) (bad : OrderItemLine) (rest : List OrderItemLine)
    (hpre : ∀ l ∈ pre, lineValid s.nomenclatures l)
    (hbad : ¬ lineValid s.nomenclatures bad) :
    create_full_order s { client_id := cid, items := pre ++ bad :: rest } =
      .error (lineError s.nomenclatures bad) := by
  unfold create_full_order
  rw [show ({ client_id := cid, items := pre ++ bad :: rest } : OrderCreate).items =
      pre ++ bad :: rest from rfl]
  rw [validateItems_append_valid _ _ _ hpre, validateItems_cons_invalid _ _ _ hbad]

/-- Witness for C7: with lines [(1,2) valid, (9,1) unknown, (1,99) short],
the first invalid line (9,1) determines the error. -/
theorem create_full_order_first_invalid_witness :
    create_full_order
        { nomenclatures := [{ id := 1, quantity := 5, price := 100 }],
          orders := [], order_items := [], next_order_id := 1 }
        { client_id := 2,
          items := [{ nomenclature_id := 1, quantity := 2 }] ++
            { nomenclature_id := 9, quantity := 1 } ::
              [{ nomenclature_id := 1, quantity := 99 }] } =
      .error (lineError [{ id := 1, quantity := 5, price := 100 }]
        { nomenclature_id := 9, quantity := 1 }) :=
  create_full_order_first_invalid _ 2 _ _ _ (by decide) (by decide)

/-- C8: when add-item merges into an existing (order, nomenclature) line, it
modifies only that line's quantity: every line keeps its order reference,
nomenclature reference and price_at_purchase; non-matching lines are
untouched; the returned item carries the existing line's price and its
quantity incremented by the request. -/
theorem add_item_price_frozen (s : DBState) (d : OrderItemCreateInput)
    (s' : DBState) (it ex : OrderItem)
    (hex : ex ∈ s.order_items) (hm : matchesLine d ex = true)
    (h : add_item_to_order s d = .ok s' it) :
    s'.order_items.map (fun x => x.price_at_purchase) =
      s.order_items.map (fun x => x.price_at_purchase) ∧
    s'.order_items.map (fun x => x.order_id) =
      s.order_items.map (fun x => x.order_id) ∧
    s'.order_items.map (fun x => x.nomenclature_id) =
      s.order_items.map (fun x => x.nomenclature_id) ∧
    s'.order_items = s.order_items.map (fun e =>
      if matchesLine d e then { e with quantity := e.quantity + d.quantity }
      else e) ∧
    it.quantity = ex.quantity + d.quantity ∧
    it.price_at_purchase = ex.price_at_purchase := by
  obtain ⟨ord, product, ho, hn, hq, hnoms, hords, hnext, hcase⟩ := add_item_ok h
  rcases hcase with ⟨hflt, hit, hitems⟩ | ⟨ex0, hflt, hit, hitems⟩
  · have : ex ∈ s.order_items.filter (matchesLine d) :=
      List.mem_filter.mpr ⟨hex, hm⟩
    rw [hflt] at this
    exact absurd this (List.not_mem_nil _)
  · have hexeq : ex = ex0 := by
      have : ex ∈ s.order_items.filter (matchesLine d) :=
        List.mem_filter.mpr ⟨hex, hm⟩
      rw [hflt] at this
      simpa using this
    subst hexeq
    refine ⟨?_, ?_, ?_, hitems, by rw [hit], by rw [hit]⟩ <;>
      (rw [hitems, List.map_map]
       apply List.map_congr_left
       intro x _
       by_cases hx : matchesLine d x <;> simp [hx])

/-- Witness for C8: merging 3 more units into the existing line (1,1) of
quantity 2 priced 500 keeps the price and bumps only the quantity. -/
theorem add_item_price_frozen_witness :
    ([({ order_id := 1, nomenclature_id := 1, quantity := 5,
         price_at_purchase := 500 } : OrderItem)]).map
        (fun x => x.price_at_purchase) =
      ([({ order_id := 1, nomenclature_id := 1, quantity := 2,
           price_at_purchase := 500 } : OrderItem)]).map
        (fun x => x.price_at_purchase) ∧
    (({ order_id := 1, nomenclature_id := 1, quantity := 5,
        price_at_purchase := 500 } : OrderItem)).quantity =
      (({ order_id := 1, nomenclature_id := 1, quantity := 2,
          price_at_purchase := 500 } : OrderItem)).quantity + 3 :=
  have hfull := add_item_price_frozen
    { nomenclatures := [{ id := 1, quantity := 9, price := 500 }],
      orders := [{ id := 1, client_id := 4 }],
      order_items := [{ order_id := 1, nomenclature_id := 1, quantity := 2,
                        price_at_purchase := 500 }],
      next_order_id := 2 }
    { order_id := 1, nomenclature_id := 1, quantity := 3 }
    { nomenclatures := [{ id := 1, quantity := 6, price := 500 }],
      orders := [{ id := 1, client_id := 4 }],
      order_items := [{ order_id := 1, nomenclature_id := 1, quantity := 5,
                        price_at_purchase := 500 }],
      next_order_id := 2 }
    { order_id := 1, nomenclature_id := 1, quantity := 5,
      price_at_purchase := 500 }
    { order_id := 1, nomenclature_id := 1, quantity := 2,
      price_at_purchase := 500 }
    (by decide) (by decide) (by decide)
  ⟨hfull.1, hfull.2.2.2.2.1⟩

/-- C5 (counterexample): "otherwise succeeds" fails on a reachable state.
Create-full-order never merges duplicate lines, so the pair (order 1,
nomenclature 1) can hold two OrderItem rows; a subsequent add-item for that
pair finds the order, finds the nomenclature with ample stock, passes the
quantity check, and then the single-row lookup hits two rows — the store's
multiple-rows fault, which is neither a success nor one of the three
business errors. -/
theorem add_item_taxonomy_counterexample :
    add_item_to_order
        (runOps { nomenclatures := [{ id := 1, quantity := 10, price := 500 }],
                  orders := [], order_items := [], next_order_id := 1 }
          [.createFullOrder
            { client_id := 7, items := [{ nomenclature_id := 1, quantity := 1 },
                                        { nomenclature_id := 1, quantity := 1 }] }])
        { order_id := 1, nomenclature_id := 1, quantity := 1 } = .fault ∧
    (runOps { nomenclatures := [{ id := 1, quantity := 10, price := 500 }],
              orders := [], order_items := [], next_order_id := 1 }
        [.createFullOrder
          { client_id := 7, items := [{ nomenclature_id := 1, quantity := 1 },
                                      { nomenclature_id := 1, quantity := 1 }] }]
      ).orders.find? (fun o => o.id == 1) = some { id := 1, client_id := 7 } ∧
    findNomenclature
        (runOps { nomenclatures := [{ id := 1, quantity := 10, price := 500 }],
                  orders := [], order_items := [], next_order_id := 1 }
          [.createFullOrder
            { client_id := 7, items := [{ nomenclature_id := 1, quantity := 1 },
                                        { nomenclature_id := 1, quantity := 1 }] }]
        ).nomenclatures 1 = some { id := 1, quantity := 8, price := 500 } :=
  ⟨rfl, rfl, rfl⟩

/-- C5 (amended): add-item checks Order-Not-Found, then
Nomenclature-Not-Found, then Insufficient-Stock, each carrying exactly the
stated payloads; every failure (the three errors and the multiple-rows
fault) leaves the committed state unchanged; and when the checks pass —
including requesting exactly the available quantity — it succeeds, provided
at most one OrderItem row exists for the (order, nomenclature) pair (with
two or more rows the single-row lookup propagates the store's multiple-rows
fault instead). -/
theorem add_item_error_taxonomy (s : DBState) (d : OrderItemCreateInput) :
    (add_item_to_order s d = .err (.orderNotFound d.order_id) ↔
      s.orders.find? (fun o => o.id == d.order_id) = none) ∧
    (add_item_to_order s d = .err (.nomenclatureNotFound d.nomenclature_id) ↔
      (s.orders.find? (fun o => o.id == d.order_id)).isSome ∧
        findNomenclature s.nomenclatures d.nomenclature_id = none) ∧
    (∀ n, findNomenclature s.nomenclatures d.nomenclature_id = some n →
      (add_item_to_order s d =
          .err (.insufficientStock d.nomenclature_id n.quantity d.quantity) ↔
        (s.orders.find? (fun o => o.id == d.order_id)).isSome ∧
          n.quantity < d.quantity)) ∧
    (∀ e, add_item_to_order s d = .err e → runOps s [.addItem d] = s) ∧
    (add_item_to_order s d = .fault → runOps s [.addItem d] = s) ∧
    (∀ n, (s.orders.find? (fun o => o.id == d.order_id)).isSome →
      findNomenclature s.nomenclatures d.nomenclature_id = some n →
      d.quantity ≤ n.quantity →
      (s.order_items.filter (matchesLine d)).length ≤ 1 →
      ∃ s' it, add_item_to_order s d = .ok s' it) := by
  have c4 : ∀ e, add_item_to_order s d = .err e → runOps s [.addItem d] = s :=
    fun e he => by rw [runOps_singleton, applyOp_addItem_err he]
  have c5 : add_item_to_order s d = .fault → runOps s [.addItem d] = s :=
    fun hf => by rw [runOps_singleton, applyOp_addItem_fault hf]
  cases hfo : s.orders.find? (fun o => o.id == d.order_id) with
  | none =>
    have hres : add_item_to_order s d = .err (.orderNotFound d.order_id) := by
      unfold add_item_to_order
      rw [hfo]
    refine ⟨by simp [hres], ?_, ?_, c4, c5, ?_⟩
    · rw [hres]; simp
    · intro n hn
      rw [hres]; simp
    · intro n hs
      simp at hs
  | some ord =>
    cases hfn : findNomenclature s.nomenclatures d.nomenclature_id with
    | none =>
      have hres : add_item_to_order s d =
          .err (.nomenclatureNotFound d.nomenclature_id) := by
        unfold add_item_to_order
        rw [hfo]
        dsimp only
        rw [hfn]
      refine ⟨by rw [hres]; simp, by rw [hres]; simp, ?_, c4, c5, ?_⟩
      · intro n hn
        exact absurd hn (by simp)
      · intro n _ hn
        exact absurd hn (by simp)
    | some product =>
      by_cases hq : product.quantity < d.quantity
      · have hres : add_item_to_order s d =
            .err (.insufficientStock d.nomenclature_id product.quantity
              d.quantity) := by
          unfold add_item_to_order
          rw [hfo]
          dsimp only
          rw [hfn]
          dsimp only
          rw [if_pos hq]
        refine ⟨by rw [hres]; simp, by rw [hres]; simp, ?_, c4, c5, ?_⟩
        · intro n hn
          injection hn with hn
          subst hn
          rw [hres]
          simp [hq]
        · intro n _ hn hle
          injection hn with hn
          subst hn
          omega
      · cases hso : scalarOneOrNone (s.order_items.filter (matchesLine d)) with
        | none =>
          have hres : add_item_to_order s d = .fault := by
            unfold add_item_to_order
            rw [hfo]
            dsimp only
            rw [hfn]
            dsimp only
            rw [if_neg hq, hso]
          refine ⟨by rw [hres]; simp, by rw [hres]; simp, ?_, c4, c5, ?_⟩
          · intro n hn
            injection hn with hn
            subst hn
            rw [hres]
            simp [hq]
          · intro n _ _ _ hcount
            have := scalarOneOrNone_eq_none.mp hso
            omega
        | some r =>
          obtain ⟨s', it, hok⟩ := add_item_ok_of hfo hfn (le_of_not_lt hq) hso
          refine ⟨by rw [hok]; simp, by rw [hok]; simp, ?_, c4, c5, ?_⟩
          · intro n hn
            injection hn with hn
            subst hn
            rw [hok]
            simp [hq]
          · intro n _ _ _ _
            exact ⟨s', it, hok⟩

/-- Witness for the amended C5: with only nomenclature 1 (quantity 10) and
order 1 present, adding to the unknown order 9 raises Order-Not-Found with
that id, and requesting exactly the 10 available units succeeds. -/
theorem add_item_error_taxonomy_witness :
    add_item_to_order
        { nomenclatures := [{ id := 1, quantity := 10, price := 500 }],
          orders := [{ id := 1, client_id := 42 }], order_items := [],
          next_order_id := 2 }
        { order_id := 9, nomenclature_id := 1, quantity := 1 } =
      .err (.orderNotFound 9) ∧
    (∃ s' it, add_item_to_order
        { nomenclatures := [{ id := 1, quantity := 10, price := 500 }],
          orders := [{ id := 1, client_id := 42 }], order_items := [],
          next_order_id := 2 }
        { order_id := 1, nomenclature_id := 1, quantity := 10 } = .ok s' it) := by
  constructor
  · exact (add_item_error_taxonomy
      { nomenclatures := [{ id := 1, quantity := 10, price := 500 }],
        orders := [{ id := 1, client_id := 42 }], order_items := [],
        next_order_id := 2 }
      { order_id := 9, nomenclature_id := 1, quantity := 1 }).1.mpr (by decide)
  · exact (add_item_error_taxonomy
      { nomenclatures := [{ id := 1, quantity := 10, price := 500 }],
        orders := [{ id := 1, client_id := 42 }], order_items := [],
        next_order_id := 2 }
      { order_id := 1, nomenclature_id := 1, quantity := 10 }).2.2.2.2.2
      { id := 1, quantity := 10, price := 500 }
      (by decide) (by decide) (by decide) (by decide)

end Claims

end Logistics
